/-
  Verification of the Task Orchestration Core of the ai-ubuntu-agent
  repository (TypeScript) against its natural-language specification.

  Shallow embedding of:
  * `Planner.executeTask` / `Planner.isTaskComplete` / `Planner.extractResult`
    (src/agent/src/planner/react.ts) — modelled as an explicit generator
    state machine: the JS async generator suspends at each `yield step`
    and only advances when the consumer calls `next()`; an early
    `generator.return()` runs the `finally` block (counter decrement)
    without running the `catch` block.
  * `Planner.requestApproval` / `approveAction` / `denyAction`
    (src/agent/src/planner/react.ts) — approval broker state machine.
  * `ToolRegistry.executeTool` (src/agent/src/tools/registry.ts) and
    `Planner.executeTool` (react.ts) — tool invocation gateway.
  * `LLMClient.chat` / `shouldRetry` / `getCacheKey`
    (src/agent/src/llm/prompts.ts, LLM client document) — model fallback
    chain and response cache.

  JS strings are modelled as Lean `String`; JS truthiness of optional
  strings (`s.error`, `s.result`) is modelled explicitly (an empty string
  is falsy).  `Date.now()`-based wall-clock checks are abstracted into an
  environment predicate.  Logging and event emission are omitted: they do
  not affect any of the verified state.
-/
import Mathlib

namespace AIAgent

/-! ### String helpers (JS `String.prototype.includes` / `toLowerCase`) -/

/-- Does the character list start with the pattern `p`? -/
def hdMatch : List Char → List Char → Bool
  | _, [] => true
  | [], _ :: _ => false
  | a :: s, b :: p => a == b && hdMatch s p

/-- Does `s` contain `p` as a contiguous sublist?  (JS `includes`.) -/
def hasSub (s p : List Char) : Bool :=
  match s with
  | [] => hdMatch [] p
  | _ :: s2 => hdMatch s p || hasSub s2 p

/-- JS `String.prototype.includes` on Lean strings. -/
def strIncludes (s p : String) : Bool :=
  hasSub s.data p.data

/-- JS `String.prototype.toLowerCase` (ASCII, which is all the source uses). -/
def lowerStr (s : String) : String :=
  ⟨s.data.map Char.toLower⟩

/-- JS truthiness of an optional string field (`undefined` and `""` are falsy). -/
def optTruthy : Option String → Bool
  | none => false
  | some s => !s.isEmpty

/-! ### Planner data model (react.ts lines 11-45)

`PlanStep.id` and `PlanStep.timestamp` (a uuid and `Date.now()`) and the
corresponding `Task` fields are omitted: no verified behaviour reads them.
`actionInput`/`result` payloads are abstracted to strings. -/

/-- `Task['status']` (react.ts line 26). -/
inductive TaskStatus where
  | queued
  | running
  | pending_approval
  | completed
  | failed
deriving DecidableEq, Repr

/-- `PlanStep` (react.ts lines 11-21). -/
structure PlanStep where
  thought : String := ""
  action : Option String := none
  actionInput : Option String := none
  observation : Option String := none
  result : Option String := none
  error : Option String := none
deriving Repr

/-- `extractResult` (react.ts lines 392-402): the payload of the most recent
step with a truthy `result` and a falsy `error`, else a synthetic summary. -/
inductive TaskResult where
  | data (payload : String)
  | summary (stepCount : Nat)
deriving DecidableEq, Repr

/-- `Task` (react.ts lines 23-35), restricted to the fields the orchestrator
logic reads or writes. -/
structure Task where
  instruction : String
  status : TaskStatus
  steps : List PlanStep
  result : Option TaskResult := none
  error : Option String := none
deriving Repr

/-- `Planner.extractResult` (react.ts lines 392-402):
`[...task.steps].reverse().find(s => s.result && !s.error)?.result ||
{summary: 'Task completed', steps: task.steps.length}`. -/
def extractResult (steps : List PlanStep) : TaskResult :=
  match steps.reverse.find? (fun s => optTruthy s.result && !optTruthy s.error) with
  | some st =>
      match st.result with
      | some payload => .data payload
      | none => .summary steps.length
  | none => .summary steps.length

/-- The completion-phrase test of `Planner.isTaskComplete`
(react.ts lines 378-381): the last step's thought, lowercased, contains
`"task complete"` or `"successfully completed"` as a substring. -/
def hasCompletionPhrase (steps : List PlanStep) : Bool :=
  let lastThought :=
    match steps.getLast? with
    | none => ""
    | some st => st.thought
  let lt := lowerStr lastThought
  strIncludes lt "task complete" || strIncludes lt "successfully completed"

/-- `Planner.isTaskComplete` (react.ts lines 374-390).  A `.error` value is a
thrown exception (`throw new Error('Too many consecutive errors')`), which the
`executeTask` loop catches at the task boundary.  `task.steps.slice(-3)` is
`steps.drop (steps.length - 3)`; `filter(s => s.error)` uses JS truthiness. -/
def isTaskComplete (steps : List PlanStep) : Except String Bool :=
  if hasCompletionPhrase steps then
    .ok true
  else if ((steps.drop (steps.length - 3)).filter (fun s => optTruthy s.error)).length ≥ 3 then
    .error "Too many consecutive errors"
  else
    .ok false

/-! ### The `executeTask` generator (react.ts lines 63-157)

`executeTask` is a JS **async generator**.  Its body only runs when the
consumer drives it:

* the first `next()` call runs from the top of the body to the first
  `yield step` (react.ts line 115) or to generator completion,
* each further `next()` call resumes after the `yield` — running
  `isTaskComplete` (line 118), re-testing the `while` condition, and either
  producing the next step up to the next `yield` or finishing the task,
* `generator.return()` while suspended at a `yield` runs only the
  `finally` block (line 151, `this.concurrentTasks--`) — *not* the `catch`
  block — and ends the generator with the task state left as it is,
* if the consumer simply stops calling `next()`, nothing further runs.

The machine below has exactly these transitions (`startGen`, `resumeGen`,
`cancelGen`).  The planner-level counter `this.concurrentTasks` is threaded
through explicitly.  `statusLog` records every value assigned to
`task.status`, in order, starting with the initial `'queued'`.
The LLM/tool interaction inside `generateNextStep` (react.ts lines 159-215)
never throws — it catches every error into `step.error` — so it is
abstracted into the environment function `genStep`; the wall-clock timeout
comparison at line 107 is abstracted into `timedOut`. -/

/-- Planner configuration (react.ts lines 52-55). -/
structure PlannerCfg where
  maxIterations : Nat := 15
  maxConcurrentTasks : Nat := 3
deriving DecidableEq, Repr

/-- Abstraction of the non-deterministic environment of one task:
the step produced by `generateNextStep` at iteration `i` (1-based), and
whether the timeout check `Date.now() - startTime > task.timeout * 1000`
fires at iteration `i`. -/
structure ExecEnv where
  genStep : Nat → PlanStep
  timedOut : Nat → Bool

/-- Whether the generator is suspended at a `yield` or has finished. -/
inductive GenPhase where
  | suspended
  | done
deriving DecidableEq, Repr

/-- State of one `executeTask` generator instance. -/
structure GenSt where
  env : ExecEnv
  task : Task
  iteration : Nat
  isComplete : Bool
  phase : GenPhase
  statusLog : List TaskStatus

/-- The `catch`+`finally` exit path (react.ts lines 140-154): mark the task
failed with the caught error message and decrement the counter. -/
def finishFail (s : GenSt) (c : Nat) (e : String) : GenSt × Nat :=
  ({ s with task := { s.task with status := .failed, error := some e },
            phase := .done,
            statusLog := s.statusLog ++ [.failed] }, c - 1)

/-- The successful exit path (react.ts lines 130-138 and the `finally`):
mark the task completed, extract the result, decrement the counter. -/
def finishOk (s : GenSt) (c : Nat) : GenSt × Nat :=
  ({ s with task := { s.task with status := .completed,
                                  result := some (extractResult s.task.steps) },
            phase := .done,
            statusLog := s.statusLog ++ [.completed] }, c - 1)

/-- One loop iteration up to the `yield` (react.ts lines 104-115):
`iteration++`, generate the step, `task.steps.push(step)`, suspend. -/
def pushStep (s : GenSt) : GenSt :=
  { s with iteration := s.iteration + 1,
           task := { s.task with
                     steps := s.task.steps ++ [s.env.genStep (s.iteration + 1)] } }

/-- From the `while` condition (react.ts line 103) to the next `yield`
(line 115) or to generator completion (lines 125-157). -/
def advance (cfg : PlannerCfg) (s : GenSt) (c : Nat) : GenSt × Nat :=
  if !s.isComplete && s.iteration < cfg.maxIterations then
    if s.env.timedOut (s.iteration + 1) then
      finishFail { s with iteration := s.iteration + 1 } c "Task execution timeout"
    else
      (pushStep s, c)
  else if cfg.maxIterations ≤ s.iteration then
    finishFail s c "Maximum iterations reached"
  else
    finishOk s c

/-- The first `next()` call (react.ts lines 69-115): create the task, apply
the concurrency gate, enter the loop and run to the first `yield` (or to
completion).  The capacity branch (lines 84-90) returns before
`this.concurrentTasks++`, so the counter is untouched there. -/
def startGen (cfg : PlannerCfg) (env : ExecEnv) (instr : String) (c : Nat) : GenSt × Nat :=
  if cfg.maxConcurrentTasks ≤ c then
    ({ env, task := { instruction := instr, status := .failed, steps := [],
                      error := some "Maximum concurrent tasks reached" },
       iteration := 0, isComplete := false, phase := .done,
       statusLog := [.queued, .failed] }, c)
  else
    advance cfg
      { env, task := { instruction := instr, status := .running, steps := [] },
        iteration := 0, isComplete := false, phase := .suspended,
        statusLog := [.queued, .running] } (c + 1)

/-- A further `next()` call while suspended (react.ts lines 117-123 and back
around the loop): run `isTaskComplete` — whose exception is caught at the
task boundary — and re-enter the loop. -/
def resumeGen (cfg : PlannerCfg) (s : GenSt) (c : Nat) : GenSt × Nat :=
  if s.phase = .done then (s, c)
  else
    match isTaskComplete s.task.steps with
    | .error e => finishFail s c e
    | .ok b => advance cfg { s with isComplete := b } c

/-- `generator.return()` while suspended: only the `finally` block runs
(react.ts lines 151-154); the `catch` block does not, so `task.status`
keeps whatever value it had. -/
def cancelGen (s : GenSt) (c : Nat) : GenSt × Nat :=
  if s.phase = .done then (s, c)
  else ({ s with phase := .done }, c - 1)

/-- `n` further `next()` calls (stopping once the generator is exhausted). -/
def driveFrom (cfg : PlannerCfg) : Nat → GenSt × Nat → GenSt × Nat
  | 0, p => p
  | n + 1, (s, c) =>
      if s.phase = .done then (s, c)
      else driveFrom cfg n (resumeGen cfg s c)

/-- A consumer that drains the generator: `for await` without `break`.
`maxIterations + 1` resumptions always suffice (proved below). -/
def runTask (cfg : PlannerCfg) (env : ExecEnv) (instr : String) (c : Nat) : GenSt × Nat :=
  driveFrom cfg (cfg.maxIterations + 1) (startGen cfg env instr c)

/-! ### Generator invariants -/

/-- A terminal task status. -/
def Terminal (st : TaskStatus) : Prop := st = .completed ∨ st = .failed

/-- The three possible complete status-assignment histories of a task. -/
def GoodLog (l : List TaskStatus) : Prop :=
  l = [.queued, .failed] ∨ l = [.queued, .running, .completed] ∨
    l = [.queued, .running, .failed]

/-- Position of a status in the lifecycle order
`queued → running → {completed | failed}`. -/
def statusRank : TaskStatus → Nat
  | .queued => 0
  | .running => 1
  | .pending_approval => 2
  | .completed => 3
  | .failed => 3

/-- Invariant of a generator state reached from `startGen` with counter
value `c0`: step count bounded by the iteration counter, iteration counter
bounded by the cap, and phase-dependent facts about status, counter and
status history. -/
structure Inv (cfg : PlannerCfg) (c0 : Nat) (p : GenSt × Nat) : Prop where
  steps_le : p.1.task.steps.length ≤ p.1.iteration
  iter_le : p.1.iteration ≤ cfg.maxIterations
  susp : p.1.phase = .suspended →
    p.1.task.status = .running ∧ p.2 = c0 + 1 ∧ 1 ≤ p.1.iteration ∧
      p.1.statusLog = [.queued, .running]
  fin : p.1.phase = .done →
    Terminal p.1.task.status ∧ p.2 = c0 ∧ GoodLog p.1.statusLog


/-! ### Tool registry (src/agent/src/tools/registry.ts)

Tool parameters and parsed data are abstracted to strings; a zod
`safeParse` either returns parsed data or a schema error message (zod's
`safeParse` captures rather than throws by contract).  A Lean `Except
String _` result of `validate`/`execute` models a **thrown** JS exception
carrying that message; `executeToolReg` returning a plain `ToolResult`
(not an `Except`) is exactly the "never throws" contract.
`recordToolMetric`/logging calls are omitted: they return no data used by
the verified control flow. -/

/-- `ToolResult` (registry.ts lines 27-32); the `metadata` field is never
read by the orchestration logic and is omitted. -/
structure ToolResult where
  success : Bool
  data : Option String := none
  error : Option String := none
deriving DecidableEq, Repr

/-- `ValidationResult` (registry.ts lines 34-37). -/
structure ValidationResult where
  valid : Bool
  errors : Option (List String) := none
deriving DecidableEq, Repr

/-- `ExecutionContext` (registry.ts lines 19-25), restricted to the only
field `executeTool` reads.  `context.approved` is optional in TS;
`approved` here is its truthiness. -/
structure ExecutionContext where
  approved : Bool
deriving DecidableEq, Repr

/-- `ToolDefinition` (registry.ts lines 9-17).  `safeParse .error msg` is a
schema mismatch, `validate`/`execute` returning `.error msg` is a thrown
exception with message `msg`. -/
structure ToolDefinition where
  requiresApproval : Bool
  riskLevel : String
  safeParse : String → Except String String
  validate : Option (String → Except String ValidationResult)
  execute : String → ExecutionContext → Except String ToolResult

/-- `validationResult.errors?.join(', ')` — `undefined` when `errors` is
absent (JS renders it as the string `"undefined"` inside the template). -/
def joinErrors : Option (List String) → String
  | none => "undefined"
  | some l => String.intercalate ", " l

/-- `error.message || 'Unknown error occurred'` (registry.ts line 163). -/
def caughtMessage (m : String) : String :=
  if m.isEmpty then "Unknown error occurred" else m

/-- Body of the `try` block of `ToolRegistry.executeTool`
(registry.ts lines 116-155): schema validation, optional custom
validation, approval flag check, execution. -/
def executeToolBody (tool : ToolDefinition) (params : String) (ctx : ExecutionContext) :
    Except String ToolResult :=
  match tool.safeParse params with
  | .error msg => .ok { success := false, error := some ("Invalid parameters: " ++ msg) }
  | .ok parsed =>
    match tool.validate with
    | some v =>
        (v parsed).bind fun vr =>
          if !vr.valid then
            .ok { success := false,
                  error := some ("Validation failed: " ++ joinErrors vr.errors) }
          else if tool.requiresApproval && !ctx.approved then
            .ok { success := false, error := some "Tool requires approval" }
          else
            tool.execute parsed ctx
    | none =>
        if tool.requiresApproval && !ctx.approved then
          .ok { success := false, error := some "Tool requires approval" }
        else
          tool.execute parsed ctx

/-- `ToolRegistry.executeTool` (registry.ts lines 101-166).  The registry
map `this.tools` is abstracted as a lookup function. -/
def executeToolReg (tools : String → Option ToolDefinition) (name : String)
    (params : String) (ctx : ExecutionContext) : ToolResult :=
  match tools name with
  | none => { success := false, error := some ("Tool not found: " ++ name) }
  | some tool =>
    match executeToolBody tool params ctx with
    | .ok r => r
    | .error m => { success := false, error := some (caughtMessage m) }

/-- Result of one orchestrator-level tool dispatch, together with whether
an approval request was issued to the Approval Broker. -/
structure DispatchResult where
  result : ToolResult
  approvalRequested : Bool
deriving DecidableEq, Repr

/-- `Planner.executeTool` (react.ts lines 272-305): look the tool up, run
the approval flow **before** calling the registry, then call
`ToolRegistry.executeTool` with `context.approved = true`.
`approvalOutcome` abstracts the resolution of `requestApproval`
(human approval / denial / 30 s timeout). -/
def plannerExecuteTool (tools : String → Option ToolDefinition)
    (approvalOutcome : Bool) (name : String) (params : String) : DispatchResult :=
  match tools name with
  | none =>
      { result := { success := false, error := some ("Tool not found: " ++ name) },
        approvalRequested := false }
  | some tool =>
    if tool.requiresApproval then
      if approvalOutcome then
        { result := executeToolReg tools name params { approved := true },
          approvalRequested := true }
      else
        { result := { success := false, error := some "Tool execution denied by user" },
          approvalRequested := true }
    else
      { result := executeToolReg tools name params { approved := true },
        approvalRequested := false }

/-! ### Approval broker (react.ts lines 307-359)

One `ApprovalRequest` is modelled by whether its id is still in
`this.approvalQueue` (`pending`) plus the list of callback invocations
(`outcomes`, the `approved` flags passed to the callback / promise
resolution).  Node's event loop serializes `approveAction`, `denyAction`
and the 30-second `setTimeout` body, so an execution is a finite sequence
of these three events.  The callback installed by `requestApproval`
(lines 321-324) deletes the queue entry and then resolves;
`approveAction`/`denyAction` (lines 341-359) invoke it only when the id is
still in the queue, and return `false` otherwise; the timer body
(lines 331-337) is guarded by `approvalQueue.has(id)`. -/

/-- State of a single approval request. -/
structure ApprovalSt where
  pending : Bool
  outcomes : List Bool
deriving DecidableEq, Repr

/-- The state of a request freshly registered by `requestApproval`. -/
def initialApproval : ApprovalSt := { pending := true, outcomes := [] }

/-- `Planner.approveAction` (react.ts lines 341-349). -/
def approveAction (s : ApprovalSt) : ApprovalSt × Bool :=
  if s.pending then ({ pending := false, outcomes := s.outcomes ++ [true] }, true)
  else (s, false)

/-- `Planner.denyAction` (react.ts lines 351-359). -/
def denyAction (s : ApprovalSt) : ApprovalSt × Bool :=
  if s.pending then ({ pending := false, outcomes := s.outcomes ++ [false] }, true)
  else (s, false)

/-- The 30-second timeout body (react.ts lines 331-337). -/
def approvalTimeout (s : ApprovalSt) : ApprovalSt :=
  if s.pending then { pending := false, outcomes := s.outcomes ++ [false] }
  else s

/-- The three serialized events that can touch one approval request. -/
inductive ApprovalEvent where
  | approve
  | deny
  | timerFire
deriving DecidableEq, Repr

/-- Apply one event to the request state. -/
def applyApproval (s : ApprovalSt) : ApprovalEvent → ApprovalSt
  | .approve => (approveAction s).1
  | .deny => (denyAction s).1
  | .timerFire => approvalTimeout s

/-- Run an arbitrary interleaving of approve/deny/timeout events against a
fresh request. -/
def runApproval (evs : List ApprovalEvent) : ApprovalSt :=
  evs.foldl applyApproval initialApproval

/-- The `approved` flag an event passes to the callback if it wins. -/
def approvalOutcomeOf : ApprovalEvent → Bool
  | .approve => true
  | .deny => false
  | .timerFire => false

/-! ### Reasoning provider client
(src/agent/src/llm/prompts.ts, `LLMClient` document, lines 191-450)

A provider behaviour maps a model name to the result of
`client.chat.completions.create` for that model: a response (with or
without a `usage` record) or a thrown error with a message and an
optional HTTP status (`error.status || error.response?.status`).
Messages/tools payloads are abstracted to strings; `getCacheKey` is
`JSON.stringify({messages, tools, model})`, modelled as an injective
pairing of the three strings. -/

/-- Result of one `completions.create` call for one model. -/
inductive ProviderRes where
  | ok (resp : String) (hasUsage : Bool)
  | err (msg : String) (status : Option Nat)
deriving DecidableEq, Repr

/-- `LLMClient.shouldRetry` (prompts.ts lines 419-423): retry exactly on
HTTP 429 / 500 / 502 / 503. -/
def shouldRetry (status : Option Nat) : Bool :=
  match status with
  | none => false
  | some s => s == 429 || s == 500 || s == 502 || s == 503

/-- Outcome of `LLMClient.chat`: a returned response or a thrown error. -/
inductive ChatOutcome where
  | success (resp : String)
  | raised (msg : String)
deriving DecidableEq, Repr

/-- The model-fallback loop of `LLMClient.chat` (prompts.ts lines 256-326).
Returns the outcome, the list of models actually attempted (provider
invocations), and the recorded `recordLLMMetric` entries
`(model, isSuccess)` — a success metric is recorded **only when the
response carries usage data** (line 282, `if (usage)`), a failure metric
always (line 312). -/
def chatLoop (prov : String → ProviderRes) :
    List String → Option String → ChatOutcome × List String × List (String × Bool)
  | [], lastErr => (.raised ("All models failed. Last error: " ++ lastErr.getD "undefined"), [], [])
  | m :: rest, _ =>
    match prov m with
    | .ok resp hasUsage =>
        (.success resp, [m], if hasUsage then [(m, true)] else [])
    | .err msg status =>
        if shouldRetry status then
          ((chatLoop prov rest (some msg)).1,
           m :: (chatLoop prov rest (some msg)).2.1,
           (m, false) :: (chatLoop prov rest (some msg)).2.2)
        else
          (.raised msg, [m], [(m, false)])

/-- `LLMClient` configuration: `config.openRouterModel` and the parsed
`config.openRouterFallbackModels` list (prompts.ts lines 212-215). -/
structure LLMCfg where
  primaryModel : String
  fallbackModels : List String
deriving DecidableEq, Repr

/-- `LLMClient.getCacheKey` (prompts.ts lines 425-427):
`JSON.stringify({messages, tools, model})`. -/
def getCacheKey (model messages tools : String) : String :=
  String.intercalate "\x00" [messages, tools, model]

/-- The NodeCache instance (`stdTTL: 300`, prompts.ts line 218): entries
`(key, response, storedAt)`, newest first; an entry is returned only
within 300 seconds of being stored. -/
def cacheGet (cache : List (String × String × Nat)) (key : String) (now : Nat) :
    Option String :=
  match cache.find? (fun e => e.1 == key) with
  | none => none
  | some e => if now < e.2.2 + 300 then some e.2.1 else none

/-- `LLMClient.chat` (prompts.ts lines 239-326): cache lookup for
non-streaming calls, then the model-fallback loop; successful
non-streaming responses are written back to the cache, streaming
responses are not.  Returns (outcome, cache after the call, provider
invocations, recorded metrics). -/
def chat (prov : String → ProviderRes) (cfg : LLMCfg)
    (cache : List (String × String × Nat)) (now : Nat)
    (messages tools : String) (stream : Bool) :
    ChatOutcome × List (String × String × Nat) × List String × List (String × Bool) :=
  match (if stream then none
         else cacheGet cache (getCacheKey cfg.primaryModel messages tools) now) with
  | some r => (.success r, cache, [], [])
  | none =>
    match chatLoop prov (cfg.primaryModel :: cfg.fallbackModels) none with
    | (.success r, att, met) =>
        (.success r,
         (if stream then cache
          else (getCacheKey cfg.primaryModel messages tools, r, now) :: cache),
         att, met)
    | (.raised e, att, met) => (.raised e, cache, att, met)

/-! ### Several tasks sharing the planner counter

`this.concurrentTasks` and `this.tasks` are fields of the single `Planner`
instance, shared by all `executeTask` generators.  Node's event loop
serializes the generators' resumptions, so a system execution is a finite
sequence of per-task events: start a new task, resume one (`next()`), or
return one early (`generator.return()`, which the HTTP route handler in
src/agent/src/api/routes.ts lines 186-192 performs after three steps). -/

/-- The planner's shared state: the `concurrentTasks` counter and the
started generators (standing in for the `tasks` map: ids are fresh uuids,
so the map holds exactly one entry per started generator). -/
structure PlannerSt where
  counter : Nat
  tasks : List GenSt

/-- A schedulable event. -/
inductive MEvent where
  | start (env : ExecEnv) (instr : String)
  | resume (i : Nat)
  | cancel (i : Nat)

/-- Apply one event to the shared planner state. -/
def mstep (cfg : PlannerCfg) (st : PlannerSt) : MEvent → PlannerSt
  | .start env instr =>
      { counter := (startGen cfg env instr st.counter).2,
        tasks := st.tasks ++ [(startGen cfg env instr st.counter).1] }
  | .resume i =>
      match st.tasks.get? i with
      | none => st
      | some g =>
          { counter := (resumeGen cfg g st.counter).2,
            tasks := st.tasks.set i (resumeGen cfg g st.counter).1 }
  | .cancel i =>
      match st.tasks.get? i with
      | none => st
      | some g =>
          { counter := (cancelGen g st.counter).2,
            tasks := st.tasks.set i (cancelGen g st.counter).1 }

/-- Run a sequence of events from an initial planner state. -/
def mrun (cfg : PlannerCfg) (evs : List MEvent) (st : PlannerSt) : PlannerSt :=
  evs.foldl (mstep cfg) st

/-- The planner state at process start. -/
def initialPlanner : PlannerSt := { counter := 0, tasks := [] }

/-- Number of tasks whose `status` field reads `running`. -/
def runningCount (st : PlannerSt) : Nat :=
  (st.tasks.filter (fun g => g.task.status == .running)).length

/-- Number of generators currently suspended inside the ReAct loop. -/
def activeCount (st : PlannerSt) : Nat :=
  (st.tasks.filter (fun g => g.phase == .suspended)).length

/-! ### Concrete scenarios

Closed environments, tools and providers used to evaluate the model on
explicit inputs. -/

/-- A step whose thought contains no completion phrase and which carries
no error. -/
def stepPlain : PlanStep := { thought := "working on it" }

/-- Environment: the LLM never signals completion, tools never fail,
no timeout. -/
def envWorking : ExecEnv := { genStep := fun _ => stepPlain, timedOut := fun _ => false }

/-- Environment: the completion phrase appears exactly at iteration `k`. -/
def envPhraseAt (k : Nat) : ExecEnv :=
  { genStep := fun i => if i = k then { thought := "Task complete." } else stepPlain,
    timedOut := fun _ => false }

/-- Environment: steps 13, 14 and 15 carry errors, and step 15 also
contains the completion phrase. -/
def envErrorsThenPhrase : ExecEnv :=
  { genStep := fun i =>
      if i = 15 then { thought := "Task complete.", error := some "tool failed" }
      else if 13 ≤ i then { thought := "retrying", error := some "tool failed" }
      else stepPlain,
    timedOut := fun _ => false }

/-- Submit a task and immediately `generator.return()` it, four times over:
exactly the consumption pattern of the HTTP route handler
(routes.ts lines 186-192), which stops after at most three steps and
returns the generator. -/
def startCancelFour : List MEvent :=
  [.start envWorking "a", .cancel 0, .start envWorking "b", .cancel 1,
   .start envWorking "c", .cancel 2, .start envWorking "d"]

/-- A registered tool whose `execute` throws. -/
def toolThatThrows : ToolDefinition :=
  { requiresApproval := false, riskLevel := "low",
    safeParse := fun p => .ok p, validate := none,
    execute := fun _ _ => .error "boom" }

/-- An approval-gated tool with a strict schema (like `exec`, registry.ts
lines 289-322: `requiresApproval: true, riskLevel: 'high'`). -/
def gatedTool : ToolDefinition :=
  { requiresApproval := true, riskLevel := "high",
    safeParse := fun p => if p = "valid" then .ok p else .error "schema mismatch",
    validate := none,
    execute := fun _ _ => .ok { success := true, data := some "ran" } }

/-- A registry holding the two concrete tools above. -/
def sampleRegistry : String → Option ToolDefinition := fun n =>
  if n = "crash" then some toolThatThrows
  else if n = "exec" then some gatedTool
  else none

/-- Provider: the primary model `"a"` is rate-limited (HTTP 429), the
fallback `"b"` succeeds with a response that carries no usage record. -/
def provRateLimited : String → ProviderRes := fun m =>
  if m = "b" then .ok "resp-b" false else .err "rate limited" (some 429)

/-- Provider: every model succeeds immediately (with usage data). -/
def provAlwaysOk : String → ProviderRes := fun m => .ok ("resp-" ++ m) true

/-- A one-model configuration. -/
def cfgOneModel : LLMCfg := { primaryModel := "p", fallbackModels := [] }

/-! ### Generator invariant lemmas -/

@[simp] lemma finishFail_snd (s : GenSt) (c : Nat) (e : String) :
    (finishFail s c e).2 = c - 1 := rfl

@[simp] lemma finishFail_phase (s : GenSt) (c : Nat) (e : String) :
    (finishFail s c e).1.phase = .done := rfl

@[simp] lemma finishFail_status (s : GenSt) (c : Nat) (e : String) :
    (finishFail s c e).1.task.status = .failed := rfl

@[simp] lemma finishFail_error (s : GenSt) (c : Nat) (e : String) :
    (finishFail s c e).1.task.error = some e := rfl

@[simp] lemma finishFail_steps (s : GenSt) (c : Nat) (e : String) :
    (finishFail s c e).1.task.steps = s.task.steps := rfl

@[simp] lemma finishFail_iteration (s : GenSt) (c : Nat) (e : String) :
    (finishFail s c e).1.iteration = s.iteration := rfl

@[simp] lemma finishFail_log (s : GenSt) (c : Nat) (e : String) :
    (finishFail s c e).1.statusLog = s.statusLog ++ [.failed] := rfl

@[simp] lemma finishOk_snd (s : GenSt) (c : Nat) :
    (finishOk s c).2 = c - 1 := rfl

@[simp] lemma finishOk_phase (s : GenSt) (c : Nat) :
    (finishOk s c).1.phase = .done := rfl

@[simp] lemma finishOk_status (s : GenSt) (c : Nat) :
    (finishOk s c).1.task.status = .completed := rfl

@[simp] lemma finishOk_steps (s : GenSt) (c : Nat) :
    (finishOk s c).1.task.steps = s.task.steps := rfl

@[simp] lemma finishOk_iteration (s : GenSt) (c : Nat) :
    (finishOk s c).1.iteration = s.iteration := rfl

@[simp] lemma finishOk_log (s : GenSt) (c : Nat) :
    (finishOk s c).1.statusLog = s.statusLog ++ [.completed] := rfl

@[simp] lemma pushStep_phase (s : GenSt) : (pushStep s).phase = s.phase := rfl

@[simp] lemma pushStep_status (s : GenSt) : (pushStep s).task.status = s.task.status := rfl

@[simp] lemma pushStep_steps (s : GenSt) :
    (pushStep s).task.steps = s.task.steps ++ [s.env.genStep (s.iteration + 1)] := rfl

@[simp] lemma pushStep_iteration (s : GenSt) : (pushStep s).iteration = s.iteration + 1 := rfl

@[simp] lemma pushStep_log (s : GenSt) : (pushStep s).statusLog = s.statusLog := rfl

lemma advance_inv (cfg : PlannerCfg) (s : GenSt) (c0 : Nat)
    (hstat : s.task.status = .running)
    (hsteps : s.task.steps.length ≤ s.iteration)
    (hiter : s.iteration ≤ cfg.maxIterations)
    (hlog : s.statusLog = [.queued, .running])
    (hphase : s.phase = .suspended) :
    Inv cfg c0 (advance cfg s (c0 + 1)) := by
  unfold advance
  split
  · rename_i hcond
    simp only [Bool.and_eq_true, decide_eq_true_eq] at hcond
    split
    · exact ⟨by simpa using Nat.le_succ_of_le hsteps, by simp; omega,
        by intro h; simp at h,
        by intro _; exact ⟨Or.inr (by simp), by simp, by simp [GoodLog, hlog]⟩⟩
    · refine ⟨by simp; omega, by simp; omega,
        by intro _; exact ⟨by simpa using hstat, rfl, by simp, by simpa using hlog⟩, ?_⟩
      intro h
      rw [pushStep_phase, hphase] at h
      exact absurd h (by simp)
  · split
    · exact ⟨by simpa using hsteps, by simpa using hiter,
        by intro h; simp at h,
        by intro _; exact ⟨Or.inr (by simp), by simp, by simp [GoodLog, hlog]⟩⟩
    · exact ⟨by simpa using hsteps, by simpa using hiter,
        by intro h; simp at h,
        by intro _; exact ⟨Or.inl (by simp), by simp, by simp [GoodLog, hlog]⟩⟩

lemma startGen_inv (cfg : PlannerCfg) (env : ExecEnv) (instr : String) (c0 : Nat) :
    Inv cfg c0 (startGen cfg env instr c0) := by
  unfold startGen
  split
  · exact ⟨Nat.le_refl 0, Nat.zero_le _,
      by intro h; simp at h,
      by intro _; exact ⟨Or.inr rfl, rfl, Or.inl rfl⟩⟩
  · exact advance_inv cfg _ c0 rfl (Nat.le_refl 0) (Nat.zero_le _) rfl rfl

lemma resumeGen_inv (cfg : PlannerCfg) (c0 : Nat) (s : GenSt) (c : Nat)
    (h : Inv cfg c0 (s, c)) : Inv cfg c0 (resumeGen cfg s c) := by
  unfold resumeGen
  split
  · exact h
  · rename_i hnd
    have hphase : s.phase = .suspended := by
      cases hp : s.phase
      · rfl
      · exact absurd hp hnd
    obtain ⟨hstat, hc, hone, hlog⟩ := h.susp hphase
    simp only at hc hstat hlog
    subst hc
    split
    · exact ⟨by simpa using h.steps_le, by simpa using h.iter_le,
        by intro hh; simp at hh,
        by intro _; exact ⟨Or.inr (by simp), by simp, by simp [GoodLog, hlog]⟩⟩
    · exact advance_inv cfg _ c0 hstat h.steps_le h.iter_le hlog hphase

lemma driveFrom_inv (cfg : PlannerCfg) (c0 : Nat) :
    ∀ (n : Nat) (p : GenSt × Nat), Inv cfg c0 p → Inv cfg c0 (driveFrom cfg n p)
  | 0, _, h => h
  | n + 1, (s, c), h => by
      unfold driveFrom
      split
      · exact h
      · exact driveFrom_inv cfg c0 n _ (resumeGen_inv cfg c0 s c h)

/-- Once the generator has finished, further `next()` calls do nothing. -/
lemma driveFrom_of_done (cfg : PlannerCfg) :
    ∀ (n : Nat) (p : GenSt × Nat), p.1.phase = .done → driveFrom cfg n p = p
  | 0, _, _ => rfl
  | n + 1, (s, c), h => by unfold driveFrom; simp only at h; simp [h]

/-- Each resumption of a suspended generator either finishes it or
advances the iteration counter by one. -/
lemma resumeGen_prog (cfg : PlannerCfg) (s : GenSt) (c : Nat)
    (h : s.phase = .suspended) :
    (resumeGen cfg s c).1.phase = .done ∨
      ((resumeGen cfg s c).1.phase = .suspended ∧
        (resumeGen cfg s c).1.iteration = s.iteration + 1) := by
  unfold resumeGen
  rw [if_neg (by simp [h])]
  split
  · exact Or.inl (by simp)
  · unfold advance
    split
    · split
      · exact Or.inl (by simp)
      · exact Or.inr ⟨by simpa using h, rfl⟩
    · split
      · exact Or.inl (by simp)
      · exact Or.inl (by simp)

lemma driveFrom_done (cfg : PlannerCfg) (c0 : Nat) :
    ∀ (n : Nat) (p : GenSt × Nat), Inv cfg c0 p →
      cfg.maxIterations + 1 ≤ n + p.1.iteration →
      (driveFrom cfg n p).1.phase = .done := by
  intro n
  induction n with
  | zero =>
      intro p h hn
      cases hp : p.1.phase
      · exact absurd h.iter_le (by omega)
      · exact hp
  | succ n ih =>
      intro p h hn
      obtain ⟨s, c⟩ := p
      unfold driveFrom
      split
      · assumption
      · rename_i hnd
        have hphase : s.phase = .suspended := by
          cases hp : s.phase
          · rfl
          · exact absurd hp hnd
        rcases resumeGen_prog cfg s c hphase with hd | ⟨hs, hi⟩
        · rw [driveFrom_of_done cfg n _ hd]
          exact hd
        · refine ih (resumeGen cfg s c) (resumeGen_inv cfg c0 s c h) ?_
          rw [hi]
          simp only at hn
          omega

/-- A draining consumer always exhausts the generator. -/
lemma runTask_done (cfg : PlannerCfg) (env : ExecEnv) (instr : String) (c : Nat) :
    (runTask cfg env instr c).1.phase = .done :=
  driveFrom_done cfg c (cfg.maxIterations + 1) (startGen cfg env instr c)
    (startGen_inv cfg env instr c) (by omega)

lemma runTask_inv (cfg : PlannerCfg) (env : ExecEnv) (instr : String) (c : Nat) :
    Inv cfg c (runTask cfg env instr c) :=
  driveFrom_inv cfg c (cfg.maxIterations + 1) _ (startGen_inv cfg env instr c)

lemma goodLog_chain {l : List TaskStatus} (h : GoodLog l) :
    List.Chain' (fun a b => statusRank a < statusRank b) l := by
  rcases h with h | h | h <;> subst h <;>
    simp [List.chain'_cons, List.chain'_singleton, statusRank]

lemma goodLog_no_pending {l : List TaskStatus} (h : GoodLog l) :
    TaskStatus.pending_approval ∉ l := by
  rcases h with h | h | h <;> subst h <;> decide

/-! ### Shared-counter lemmas -/

/-- `startGen` either admits the task — counter incremented, generator
suspended — or finishes it at once with the counter back at its initial
value. -/
lemma startGen_counter_cases (cfg : PlannerCfg) (env : ExecEnv) (instr : String) (c : Nat) :
    ((startGen cfg env instr c).1.phase = .suspended ∧
      (startGen cfg env instr c).2 = c + 1 ∧ c < cfg.maxConcurrentTasks) ∨
    ((startGen cfg env instr c).1.phase = .done ∧ (startGen cfg env instr c).2 = c) := by
  unfold startGen
  split
  · exact Or.inr ⟨rfl, rfl⟩
  · rename_i hcap
    unfold advance
    split
    · split
      · exact Or.inr ⟨by simp, by simp⟩
      · exact Or.inl ⟨by simp, by simp, by omega⟩
    · split
      · exact Or.inr ⟨by simp, by simp⟩
      · exact Or.inr ⟨by simp, by simp⟩

/-- Resuming a suspended generator either keeps it suspended with the
counter unchanged, or finishes it and decrements the counter. -/
lemma resumeGen_counter_cases (cfg : PlannerCfg) (s : GenSt) (c : Nat)
    (h : s.phase = .suspended) :
    ((resumeGen cfg s c).1.phase = .suspended ∧ (resumeGen cfg s c).2 = c) ∨
    ((resumeGen cfg s c).1.phase = .done ∧ (resumeGen cfg s c).2 = c - 1) := by
  unfold resumeGen
  rw [if_neg (by simp [h])]
  split
  · exact Or.inr ⟨by simp, by simp⟩
  · unfold advance
    split
    · split
      · exact Or.inr ⟨by simp, by simp⟩
      · exact Or.inl ⟨by simpa using h, rfl⟩
    · split
      · exact Or.inr ⟨by simp, by simp⟩
      · exact Or.inr ⟨by simp, by simp⟩

lemma resumeGen_of_done (cfg : PlannerCfg) (s : GenSt) (c : Nat)
    (h : s.phase = .done) : resumeGen cfg s c = (s, c) := by
  unfold resumeGen
  rw [if_pos h]

lemma cancelGen_of_susp (s : GenSt) (c : Nat) (h : s.phase = .suspended) :
    cancelGen s c = ({ s with phase := .done }, c - 1) := by
  unfold cancelGen
  rw [if_neg (by simp [h])]

lemma cancelGen_of_done (s : GenSt) (c : Nat) (h : s.phase = .done) :
    cancelGen s c = (s, c) := by
  unfold cancelGen
  rw [if_pos h]

/-- Updating position `i` of a list changes a filtered length by the
difference of the two elements' filter outcomes. -/
lemma filter_length_set {α : Type} (p : α → Bool) :
    ∀ (l : List α) (i : Nat) (a b : α), l.get? i = some a →
      ((l.set i b).filter p).length + (if p a then 1 else 0)
        = (l.filter p).length + (if p b then 1 else 0) := by
  intro l
  induction l with
  | nil => intro i a b h; simp at h
  | cons x xs ih =>
      intro i a b h
      cases i with
      | zero =>
          simp only [List.get?] at h
          injection h with h
          subst h
          simp only [List.set, List.filter_cons]
          split <;> split <;> simp
      | succ n =>
          simp only [List.get?] at h
          have hh := ih n a b h
          simp only [List.set, List.filter_cons]
          split
          · simp only [List.length_cons]
            split_ifs at hh ⊢ <;> omega
          · exact hh

/-- `activeCount` reads only the task list. -/
lemma activeCount_mk (c2 : Nat) (l : List GenSt) :
    activeCount ⟨c2, l⟩ = (l.filter (fun g => g.phase == .suspended)).length := rfl

/-- One scheduler event preserves `activeCount ≤ counter ≤ ceiling`. -/
lemma mstep_bounds (cfg : PlannerCfg) (st : PlannerSt) (ev : MEvent)
    (h1 : activeCount st ≤ st.counter)
    (h2 : st.counter ≤ cfg.maxConcurrentTasks) :
    activeCount (mstep cfg st ev) ≤ (mstep cfg st ev).counter ∧
      (mstep cfg st ev).counter ≤ cfg.maxConcurrentTasks := by
  have hA : activeCount st = (st.tasks.filter (fun g => g.phase == .suspended)).length := rfl
  cases ev with
  | start env instr =>
      simp only [mstep]
      rw [show activeCount ⟨(startGen cfg env instr st.counter).2,
            st.tasks ++ [(startGen cfg env instr st.counter).1]⟩
          = ((st.tasks ++ [(startGen cfg env instr st.counter).1]).filter
              (fun g => g.phase == .suspended)).length from rfl]
      simp only [List.filter_append, List.length_append]
      rcases startGen_counter_cases cfg env instr st.counter with ⟨hp, hc, hlt⟩ | ⟨hp, hc⟩ <;>
        rw [hc] <;> simp only [List.filter_cons, List.filter_nil, hp] <;>
        refine ⟨?_, by omega⟩ <;> simp <;> omega
  | resume i =>
      cases hg : st.tasks.get? i with
      | none => simp only [mstep, hg]; exact ⟨h1, h2⟩
      | some g =>
          simp only [mstep, hg]
          have hset := filter_length_set (fun g2 => g2.phase == .suspended) st.tasks i g
            (resumeGen cfg g st.counter).1 hg
          rw [show activeCount ⟨(resumeGen cfg g st.counter).2,
                st.tasks.set i (resumeGen cfg g st.counter).1⟩
              = ((st.tasks.set i (resumeGen cfg g st.counter).1).filter
                  (fun g2 => g2.phase == .suspended)).length from rfl]
          cases hp : g.phase with
          | done =>
              have h2nd : (resumeGen cfg g st.counter).2 = st.counter := by
                rw [resumeGen_of_done cfg g st.counter hp]
              have h1st : (resumeGen cfg g st.counter).1 = g := by
                rw [resumeGen_of_done cfg g st.counter hp]
              rw [h2nd]
              rw [h1st] at hset ⊢
              simp [hp] at hset
              omega
          | suspended =>
              rcases resumeGen_counter_cases cfg g st.counter hp with ⟨hp2, hc2⟩ | ⟨hp2, hc2⟩ <;>
                · rw [hc2]
                  simp [hp, hp2] at hset
                  refine ⟨by omega, by omega⟩
  | cancel i =>
      cases hg : st.tasks.get? i with
      | none => simp only [mstep, hg]; exact ⟨h1, h2⟩
      | some g =>
          simp only [mstep, hg]
          have hset := filter_length_set (fun g2 => g2.phase == .suspended) st.tasks i g
            (cancelGen g st.counter).1 hg
          rw [show activeCount ⟨(cancelGen g st.counter).2,
                st.tasks.set i (cancelGen g st.counter).1⟩
              = ((st.tasks.set i (cancelGen g st.counter).1).filter
                  (fun g2 => g2.phase == .suspended)).length from rfl]
          cases hp : g.phase with
          | done =>
              have h2nd : (cancelGen g st.counter).2 = st.counter := by
                rw [cancelGen_of_done g st.counter hp]
              have h1st : (cancelGen g st.counter).1 = g := by
                rw [cancelGen_of_done g st.counter hp]
              rw [h2nd]
              rw [h1st] at hset ⊢
              simp [hp] at hset
              omega
          | suspended =>
              have h2nd : (cancelGen g st.counter).2 = st.counter - 1 := by
                rw [cancelGen_of_susp g st.counter hp]
              have h1st : (cancelGen g st.counter).1 = { g with phase := .done } := by
                rw [cancelGen_of_susp g st.counter hp]
              rw [h2nd]
              rw [h1st] at hset ⊢
              simp [hp] at hset
              refine ⟨by omega, by omega⟩

/-- The bounds hold at every reachable planner state. -/
lemma mrun_bounds (cfg : PlannerCfg) (evs : List MEvent) :
    ∀ (st : PlannerSt), activeCount st ≤ st.counter →
      st.counter ≤ cfg.maxConcurrentTasks →
      activeCount (mrun cfg evs st) ≤ (mrun cfg evs st).counter ∧
        (mrun cfg evs st).counter ≤ cfg.maxConcurrentTasks := by
  induction evs with
  | nil => intro st h1 h2; exact ⟨h1, h2⟩
  | cons e evs ih =>
      intro st h1 h2
      have := mstep_bounds cfg st e h1 h2
      exact ih (mstep cfg st e) this.1 this.2

/-! ### Claim theorems -/

/-- **C1**: for every fully-driven `Planner.executeTask` run (any
environment, instruction and prior counter value), at most
`maxIterations` steps are appended; once the generator is exhausted the
task status is terminal (`completed` or `failed`); the sequence of values
assigned to `task.status` is strictly monotone in the lifecycle order
`queued → running → {completed | failed}` (so there is no backward
transition), and the unused `pending_approval` value is never assigned. -/
theorem executeTask_lifecycle (cfg : PlannerCfg) (env : ExecEnv) (instr : String) (c : Nat) :
    (runTask cfg env instr c).1.task.steps.length ≤ cfg.maxIterations ∧
    (runTask cfg env instr c).1.phase = .done ∧
    Terminal (runTask cfg env instr c).1.task.status ∧
    List.Chain' (fun a b => statusRank a < statusRank b)
      (runTask cfg env instr c).1.statusLog ∧
    TaskStatus.pending_approval ∉ (runTask cfg env instr c).1.statusLog := by
  have hinv := runTask_inv cfg env instr c
  have hdone := runTask_done cfg env instr c
  obtain ⟨hterm, hc, hlog⟩ := hinv.fin hdone
  exact ⟨le_trans hinv.steps_le hinv.iter_le, hdone, hterm,
    goodLog_chain hlog, goodLog_no_pending hlog⟩

/-- **C3** (counterexample): with the default ceiling 3, submit a task and
immediately `generator.return()` it — the consumption pattern of the HTTP
route handler — four times over.  All four tasks then hold
`status = 'running'` simultaneously while the counter is back at 1, so
strictly more than `maxConcurrentTasks` tasks hold the running status,
refuting the claim's first clause. -/
theorem four_running_tasks :
    runningCount (mrun {} startCancelFour initialPlanner) = 4 ∧
    (4 > ({} : PlannerCfg).maxConcurrentTasks) := by
  constructor
  · decide
  · decide

/-- **C3** (amended): the shared `concurrentTasks` counter never exceeds
the ceiling, and at most `maxConcurrentTasks` generators are
simultaneously suspended inside the reasoning loop; starting a task while
the counter is at the ceiling immediately yields a failed task with error
`'Maximum concurrent tasks reached'`, with no steps, without incrementing
the counter and without entering the loop; and every admitted task
decrements the counter exactly once on each exit path — full drain
(success or failure) restores the counter, and so does an early
`generator.return()`.  (What is *not* true of the code is the claim's
running-status count: a task finished by `generator.return()` keeps
`status = 'running'` for ever, so the number of tasks whose status field
reads `running` can exceed the ceiling — see the counterexample.) -/
theorem concurrency_gate (cfg : PlannerCfg) :
    (∀ evs : List MEvent,
      activeCount (mrun cfg evs initialPlanner) ≤ (mrun cfg evs initialPlanner).counter ∧
      (mrun cfg evs initialPlanner).counter ≤ cfg.maxConcurrentTasks) ∧
    (∀ (env : ExecEnv) (instr : String) (c : Nat), cfg.maxConcurrentTasks ≤ c →
      (startGen cfg env instr c).1.task.status = .failed ∧
      (startGen cfg env instr c).1.task.error = some "Maximum concurrent tasks reached" ∧
      (startGen cfg env instr c).1.task.steps = [] ∧
      (startGen cfg env instr c).1.phase = .done ∧
      (startGen cfg env instr c).2 = c) ∧
    (∀ (env : ExecEnv) (instr : String) (c : Nat), (runTask cfg env instr c).2 = c) ∧
    (∀ (s : GenSt) (c : Nat), s.phase = .suspended → (cancelGen s c).2 = c - 1) := by
  refine ⟨?_, ?_, ?_, ?_⟩
  · intro evs
    exact mrun_bounds cfg evs initialPlanner (Nat.le_refl 0) (Nat.zero_le _)
  · intro env instr c hc
    unfold startGen
    rw [if_pos hc]
    exact ⟨rfl, rfl, rfl, rfl, rfl⟩
  · intro env instr c
    exact ((runTask_inv cfg env instr c).fin (runTask_done cfg env instr c)).2.1
  · intro s c hs
    rw [cancelGen_of_susp s c hs]

/-- **C3** (witness for the amended theorem): the capacity branch at the
default ceiling with counter 3, and the counter bound after the
four-task scenario. -/
theorem concurrency_gate_witness :
    (startGen {} envWorking "t" 3).1.task.status = .failed ∧
    (startGen {} envWorking "t" 3).2 = 3 ∧
    (mrun {} startCancelFour initialPlanner).counter ≤ ({} : PlannerCfg).maxConcurrentTasks := by
  refine ⟨?_, ?_, ?_⟩
  · exact ((concurrency_gate {}).2.1 envWorking "t" 3 (by decide)).1
  · exact ((concurrency_gate {}).2.1 envWorking "t" 3 (by decide)).2.2.2.2
  · exact ((concurrency_gate {}).1 startCancelFour).2

/-- The completion-phrase branch of `isTaskComplete` wins outright. -/
lemma isTaskComplete_of_phrase (steps : List PlanStep)
    (h : hasCompletionPhrase steps = true) : isTaskComplete steps = .ok true := by
  unfold isTaskComplete
  rw [if_pos h]

/-- **C5** (counterexample): with the default configuration
(`maxIterations = 15`) and an environment whose completion phrase first
appears at iteration 15, the most recent step's thought contains
`"task complete"`, yet the task ends `failed` with error
`'Maximum iterations reached'` — not `completed` — because the
`iteration >= maxIterations` check (react.ts line 125) fires without
consulting `isComplete`.  This refutes the claim's parenthetical case. -/
theorem completion_at_cap_fails :
    hasCompletionPhrase (runTask {} (envPhraseAt 15) "t" 0).1.task.steps = true ∧
    (runTask {} (envPhraseAt 15) "t" 0).1.task.steps.length = 15 ∧
    (runTask {} (envPhraseAt 15) "t" 0).1.task.status = .failed ∧
    (runTask {} (envPhraseAt 15) "t" 0).1.task.error = some "Maximum iterations reached" := by
  refine ⟨by decide, by decide, by decide, by decide⟩

/-- **C5** (amended): whenever the most recent step's thought contains a
completion phrase (`'task complete'` / `'successfully completed'`,
case-insensitive substring), the next resumption stops the loop — no
further step is generated — and, **provided the phrase appeared before
iteration `maxIterations`**, the task terminates `completed`; if the
phrase appears exactly at iteration `maxIterations`, the task instead
terminates `failed` with `'Maximum iterations reached'`. -/
theorem completion_phrase_stops_loop (cfg : PlannerCfg) (s : GenSt) (c : Nat)
    (hsusp : s.phase = .suspended)
    (hphrase : hasCompletionPhrase s.task.steps = true) :
    ((resumeGen cfg s c).1.phase = .done ∧
      (resumeGen cfg s c).1.task.steps = s.task.steps) ∧
    (s.iteration < cfg.maxIterations →
      (resumeGen cfg s c).1.task.status = .completed) ∧
    (cfg.maxIterations ≤ s.iteration →
      (resumeGen cfg s c).1.task.status = .failed ∧
      (resumeGen cfg s c).1.task.error = some "Maximum iterations reached") := by
  have hre : resumeGen cfg s c = advance cfg { s with isComplete := true } c := by
    unfold resumeGen
    rw [if_neg (by simp [hsusp]), isTaskComplete_of_phrase s.task.steps hphrase]
  rw [hre]
  unfold advance
  rw [if_neg (by simp)]
  constructor
  · split
    · exact ⟨by simp, by simp⟩
    · exact ⟨by simp, by simp⟩
  constructor
  · intro hlt
    rw [if_neg (by simpa using Nat.not_le.mpr hlt)]
    simp
  · intro hge
    rw [if_pos (by simpa using hge)]
    exact ⟨by simp, by simp⟩

/-- **C5** (witness for the amended theorem): the phrase at iteration 1 of
the default configuration completes the task on the next resumption. -/
theorem completion_phrase_stops_loop_witness :
    (resumeGen {} (startGen {} (envPhraseAt 1) "t" 0).1 1).1.task.status = .completed :=
  (completion_phrase_stops_loop {} (startGen {} (envPhraseAt 1) "t" 0).1 1
    (by decide) (by decide)).2.1 (by decide)

/-- **C9** (counterexample): after the consumer's first (and only)
`next()` call on a fresh task, the generator is suspended with the task
still `running` and the counter elevated to 1; a JS generator runs no
further code unless the consumer calls `next()` or `return()`, so an
abandoning consumer leaves the task non-terminal and the counter
elevated for ever.  Calling `generator.return()` instead (as the HTTP
route does) finishes the generator and restores the counter, but the
task status *still* reads `running` — also non-terminal.  Both outcomes
refute the claim that the loop "always drains to completion or abort on
its own schedule". -/
theorem abandoned_task_stays_running :
    (startGen {} envWorking "t" 0).1.phase = .suspended ∧
    (startGen {} envWorking "t" 0).1.task.status = .running ∧
    (startGen {} envWorking "t" 0).2 = 1 ∧
    (cancelGen (startGen {} envWorking "t" 0).1 1).1.phase = .done ∧
    (cancelGen (startGen {} envWorking "t" 0).1 1).1.task.status = .running ∧
    (cancelGen (startGen {} envWorking "t" 0).1 1).2 = 0 := by
  refine ⟨by decide, by decide, by decide, by decide, by decide, by decide⟩

/-- **C9** (amended): progress happens only on consumer calls.  If the
consumer drains the generator, the task reaches a terminal status and the
counter returns to its prior value; if the consumer ends it early with
`generator.return()`, the `finally` block decrements the counter exactly
once but the task keeps the (non-terminal) state it had at the `yield`;
if the consumer merely stops calling `next()`, the state does not change
at all (there is no transition to apply). -/
theorem early_stop_semantics (cfg : PlannerCfg) :
    (∀ (env : ExecEnv) (instr : String) (c : Nat),
      (runTask cfg env instr c).1.phase = .done ∧
      Terminal (runTask cfg env instr c).1.task.status ∧
      (runTask cfg env instr c).2 = c) ∧
    (∀ (s : GenSt) (c : Nat), s.phase = .suspended →
      (cancelGen s c).1.phase = .done ∧
      (cancelGen s c).1.task = s.task ∧
      (cancelGen s c).2 = c - 1) := by
  constructor
  · intro env instr c
    have hdone := runTask_done cfg env instr c
    exact ⟨hdone, ((runTask_inv cfg env instr c).fin hdone).1,
      ((runTask_inv cfg env instr c).fin hdone).2.1⟩
  · intro s c hs
    rw [cancelGen_of_susp s c hs]
    exact ⟨rfl, rfl, rfl⟩

/-- **C9** (witness for the amended theorem): a drained run terminates
with the counter restored, and an early return leaves the task record
untouched. -/
theorem early_stop_semantics_witness :
    (runTask {} envWorking "t" 0).2 = 0 ∧
    (cancelGen (startGen {} envWorking "t" 0).1 1).1.task
      = (startGen {} envWorking "t" 0).1.task := by
  exact ⟨((early_stop_semantics {}).1 envWorking "t" 0).2.2,
    ((early_stop_semantics {}).2 (startGen {} envWorking "t" 0).1 1 (by decide)).2.1⟩

/-- **C10** (counterexample): errors on steps 13-15 and the completion
phrase on step 15, under the default configuration.  The completion check
does take precedence over the consecutive-error abort — no
`'Too many consecutive errors'` error is raised — but the task still ends
`failed` (with `'Maximum iterations reached'`), not `completed`, because
the phrase arrived at the iteration cap.  This refutes the claim's
unconditional "the task terminates with status completed". -/
theorem completion_with_errors_at_cap_fails :
    hasCompletionPhrase (runTask {} envErrorsThenPhrase "t" 0).1.task.steps = true ∧
    (((runTask {} envErrorsThenPhrase "t" 0).1.task.steps.drop
        ((runTask {} envErrorsThenPhrase "t" 0).1.task.steps.length - 3)).filter
      (fun s => optTruthy s.error)).length = 3 ∧
    (runTask {} envErrorsThenPhrase "t" 0).1.task.status = .failed ∧
    (runTask {} envErrorsThenPhrase "t" 0).1.task.error
      = some "Maximum iterations reached" := by
  refine ⟨by decide, by decide, by decide, by decide⟩

/-- **C10** (amended): the completion check precedes the consecutive-error
abort.  If the most recent step's thought contains a completion phrase,
`isTaskComplete` returns `true` — it never throws, however many recent
steps carry errors — and the `'Too many consecutive errors'` abort is
raised only when the phrase is absent; consequently a suspended task
whose last step carries the phrase (and whose last three steps all carry
errors) completes on the next resumption **provided the iteration counter
is below `maxIterations`** (at the cap it fails, as for C5). -/
theorem completion_precedes_error_abort :
    (∀ steps : List PlanStep, hasCompletionPhrase steps = true →
      isTaskComplete steps = .ok true) ∧
    (∀ (steps : List PlanStep) (e : String), isTaskComplete steps = .error e →
      hasCompletionPhrase steps = false) ∧
    (∀ (cfg : PlannerCfg) (s : GenSt) (c : Nat), s.phase = .suspended →
      hasCompletionPhrase s.task.steps = true →
      (∀ st ∈ s.task.steps.drop (s.task.steps.length - 3), optTruthy st.error = true) →
      s.iteration < cfg.maxIterations →
      (resumeGen cfg s c).1.task.status = .completed ∧
      (resumeGen cfg s c).1.phase = .done) := by
  refine ⟨?_, ?_, ?_⟩
  · exact fun steps h => isTaskComplete_of_phrase steps h
  · intro steps e h
    by_contra hn
    rw [isTaskComplete_of_phrase steps (by simpa using hn)] at h
    exact absurd h (by simp)
  · intro cfg s c hsusp hphrase _ hlt
    exact ⟨(completion_phrase_stops_loop cfg s c hsusp hphrase).2.1 hlt,
      (completion_phrase_stops_loop cfg s c hsusp hphrase).1.1⟩

/-- **C10** (witness for the amended theorem): a step list whose last three
entries all carry errors and whose last thought contains the phrase is
judged complete. -/
theorem completion_precedes_error_abort_witness :
    isTaskComplete
      [{ thought := "retrying", error := some "tool failed" },
       { thought := "retrying", error := some "tool failed" },
       { thought := "Task complete.", error := some "tool failed" }] = .ok true :=
  completion_precedes_error_abort.1 _ (by decide)

/-- A non-empty thrown message survives `error.message || 'Unknown error
occurred'` unchanged. -/
lemma caughtMessage_of_ne (m : String) (h : m ≠ "") : caughtMessage m = m := by
  unfold caughtMessage
  rw [if_neg]
  simpa [String.isEmpty_iff] using h

/-- **C2**: `ToolRegistry.executeTool` always returns a plain `ToolResult`
(in the embedding its result type is `ToolResult`, not an exception
monad — this is the "never throws" contract): an unknown name yields the
not-found failure; an exception thrown by the tool's `execute` operation
(whether or not a custom validator is installed) or by the custom
validator itself is caught and returned as
`{success := false, error := message}` (for a JS error with a non-empty
message, which `error.message || 'Unknown error occurred'` passes
through unchanged). -/
theorem executeTool_captures_failures :
    (∀ (tools : String → Option ToolDefinition) (name params : String)
        (ctx : ExecutionContext),
      tools name = none →
      executeToolReg tools name params ctx
        = { success := false, error := some ("Tool not found: " ++ name) }) ∧
    (∀ (tools : String → Option ToolDefinition) (name : String) (tool : ToolDefinition)
        (params parsed m : String) (ctx : ExecutionContext),
      tools name = some tool →
      tool.safeParse params = .ok parsed →
      tool.validate = none →
      (tool.requiresApproval && !ctx.approved) = false →
      tool.execute parsed ctx = .error m → m ≠ "" →
      executeToolReg tools name params ctx = { success := false, error := some m }) ∧
    (∀ (tools : String → Option ToolDefinition) (name : String) (tool : ToolDefinition)
        (params parsed m : String) (ctx : ExecutionContext)
        (v : String → Except String ValidationResult) (vr : ValidationResult),
      tools name = some tool →
      tool.safeParse params = .ok parsed →
      tool.validate = some v →
      v parsed = .ok vr → vr.valid = true →
      (tool.requiresApproval && !ctx.approved) = false →
      tool.execute parsed ctx = .error m → m ≠ "" →
      executeToolReg tools name params ctx = { success := false, error := some m }) ∧
    (∀ (tools : String → Option ToolDefinition) (name : String) (tool : ToolDefinition)
        (params parsed m : String) (ctx : ExecutionContext)
        (v : String → Except String ValidationResult),
      tools name = some tool →
      tool.safeParse params = .ok parsed →
      tool.validate = some v →
      v parsed = .error m → m ≠ "" →
      executeToolReg tools name params ctx = { success := false, error := some m }) := by
  refine ⟨?_, ?_, ?_, ?_⟩
  · intro tools name params ctx hname
    simp [executeToolReg, hname]
  · intro tools name tool params parsed m ctx hname hparse hval happ hexec hm
    simp [executeToolReg, executeToolBody, hname, hparse, hval, happ, hexec,
      caughtMessage_of_ne m hm]
  · intro tools name tool params parsed m ctx v vr hname hparse hval hv hvalid happ hexec hm
    simp [executeToolReg, executeToolBody, hname, hparse, hval, hv, Except.bind, hvalid,
      happ, hexec, caughtMessage_of_ne m hm]
  · intro tools name tool params parsed m ctx v hname hparse hval hv hm
    simp [executeToolReg, executeToolBody, hname, hparse, hval, hv, Except.bind,
      caughtMessage_of_ne m hm]

/-- **C2** (witness): the registered tool `"crash"` whose `execute` throws
`"boom"` yields the wrapped failure, and an unknown tool name yields the
not-found failure. -/
theorem executeTool_captures_failures_witness :
    executeToolReg sampleRegistry "crash" "x" { approved := true }
      = { success := false, error := some "boom" } ∧
    executeToolReg sampleRegistry "mystery" "x" { approved := true }
      = { success := false, error := some ("Tool not found: " ++ "mystery") } := by
  constructor
  · exact executeTool_captures_failures.2.1 sampleRegistry "crash" toolThatThrows
      "x" "x" "boom" { approved := true } rfl rfl rfl rfl rfl (by decide)
  · exact executeTool_captures_failures.1 sampleRegistry "mystery" "x"
      { approved := true } rfl

/-- **C6** (counterexample): dispatching the approval-gated tool `"exec"`
through `Planner.executeTool` with parameters that fail its schema.
`Planner.executeTool` (react.ts line 288) requests approval **before**
`ToolRegistry.executeTool` validates anything, so the approval request is
issued even though the parameters are schema-invalid — refuting the
claim that approval is never requested for an invocation whose
parameters would fail validation. -/
theorem approval_requested_for_invalid_params :
    gatedTool.safeParse "oops" = .error "schema mismatch" ∧
    (plannerExecuteTool sampleRegistry true "exec" "oops").approvalRequested = true ∧
    (plannerExecuteTool sampleRegistry true "exec" "oops").result
      = { success := false, error := some "Invalid parameters: schema mismatch" } := by
  refine ⟨rfl, by decide, by decide⟩

/-- **C6** (amended): **within `ToolRegistry.executeTool`** the checks run
in the order (a) name lookup, (b) structural schema validation,
(c) optional custom validator, (d) approval-flag check, (e) execution,
each short-circuiting into a failure `ToolResult`; but the orchestrator's
`Planner.executeTool` performs its own lookup and then requests approval
**before** invoking the registry, so for an approval-gated tool the
approval request is issued regardless of whether the parameters would
pass schema or custom validation. -/
theorem gateway_check_order :
    (∀ (tools : String → Option ToolDefinition) (name params : String)
        (ctx : ExecutionContext),
      tools name = none →
      executeToolReg tools name params ctx
        = { success := false, error := some ("Tool not found: " ++ name) }) ∧
    (∀ (tools : String → Option ToolDefinition) (name : String) (tool : ToolDefinition)
        (params msg : String) (ctx : ExecutionContext),
      tools name = some tool →
      tool.safeParse params = .error msg →
      executeToolReg tools name params ctx
        = { success := false, error := some ("Invalid parameters: " ++ msg) }) ∧
    (∀ (tools : String → Option ToolDefinition) (name : String) (tool : ToolDefinition)
        (params parsed : String) (ctx : ExecutionContext)
        (v : String → Except String ValidationResult) (vr : ValidationResult),
      tools name = some tool →
      tool.safeParse params = .ok parsed →
      tool.validate = some v →
      v parsed = .ok vr → vr.valid = false →
      executeToolReg tools name params ctx
        = { success := false,
            error := some ("Validation failed: " ++ joinErrors vr.errors) }) ∧
    (∀ (tools : String → Option ToolDefinition) (name : String) (tool : ToolDefinition)
        (params parsed : String) (ctx : ExecutionContext),
      tools name = some tool →
      tool.safeParse params = .ok parsed →
      (tool.validate = none ∨
        ∃ v vr, tool.validate = some v ∧ v parsed = .ok vr ∧ vr.valid = true) →
      tool.requiresApproval = true → ctx.approved = false →
      executeToolReg tools name params ctx
        = { success := false, error := some "Tool requires approval" }) ∧
    (∀ (tools : String → Option ToolDefinition) (name : String) (tool : ToolDefinition)
        (params parsed : String) (ctx : ExecutionContext) (r : ToolResult),
      tools name = some tool →
      tool.safeParse params = .ok parsed →
      (tool.validate = none ∨
        ∃ v vr, tool.validate = some v ∧ v parsed = .ok vr ∧ vr.valid = true) →
      (tool.requiresApproval && !ctx.approved) = false →
      tool.execute parsed ctx = .ok r →
      executeToolReg tools name params ctx = r) ∧
    (∀ (tools : String → Option ToolDefinition) (name : String) (tool : ToolDefinition)
        (params : String) (approvalOutcome : Bool),
      tools name = some tool →
      tool.requiresApproval = true →
      (plannerExecuteTool tools approvalOutcome name params).approvalRequested = true) := by
  refine ⟨?_, ?_, ?_, ?_, ?_, ?_⟩
  · intro tools name params ctx hname
    simp [executeToolReg, hname]
  · intro tools name tool params msg ctx hname hparse
    simp [executeToolReg, executeToolBody, hname, hparse]
  · intro tools name tool params parsed ctx v vr hname hparse hval hv hvalid
    simp [executeToolReg, executeToolBody, hname, hparse, hval, hv, Except.bind, hvalid]
  · intro tools name tool params parsed ctx hname hparse hval hreq happ
    rcases hval with hnone | ⟨v, vr, hv, hvr, hvalid⟩
    · simp [executeToolReg, executeToolBody, hname, hparse, hnone, hreq, happ]
    · simp [executeToolReg, executeToolBody, hname, hparse, hv, hvr, Except.bind, hvalid,
        hreq, happ]
  · intro tools name tool params parsed ctx r hname hparse hval happ hexec
    rcases hval with hnone | ⟨v, vr, hv, hvr, hvalid⟩
    · simp [executeToolReg, executeToolBody, hname, hparse, hnone, happ, hexec]
    · simp [executeToolReg, executeToolBody, hname, hparse, hv, hvr, Except.bind, hvalid,
        happ, hexec]
  · intro tools name tool params approvalOutcome hname hreq
    unfold plannerExecuteTool
    rw [hname]
    simp only [hreq, if_true]
    split <;> rfl

/-- **C6** (witness for the amended theorem): the registry rejects the
schema-invalid call without executing, and the gated tool's dispatch
requests approval. -/
theorem gateway_check_order_witness :
    executeToolReg sampleRegistry "exec" "oops" { approved := true }
      = { success := false, error := some ("Invalid parameters: " ++ "schema mismatch") } ∧
    (plannerExecuteTool sampleRegistry false "exec" "oops").approvalRequested = true := by
  constructor
  · exact gateway_check_order.2.1 sampleRegistry "exec" gatedTool "oops"
      "schema mismatch" { approved := true } rfl rfl
  · exact gateway_check_order.2.2.2.2.2 sampleRegistry "exec" gatedTool "oops" false
      rfl rfl

/-- A resolved request is inert: no event changes it. -/
lemma applyApproval_resolved (s : ApprovalSt) (e : ApprovalEvent)
    (h : s.pending = false) : applyApproval s e = s := by
  cases e <;> simp [applyApproval, approveAction, denyAction, approvalTimeout, h]

/-- Folding further events over a resolved request changes nothing. -/
lemma foldl_resolved :
    ∀ (evs : List ApprovalEvent) (s : ApprovalSt), s.pending = false →
      evs.foldl applyApproval s = s
  | [], _, _ => rfl
  | e :: evs, s, h => by
      rw [List.foldl_cons, applyApproval_resolved s e h]
      exact foldl_resolved evs s h

/-- The first event resolves the fresh request. -/
lemma applyApproval_initial (e : ApprovalEvent) :
    applyApproval initialApproval e
      = { pending := false, outcomes := [approvalOutcomeOf e] } := by
  cases e <;> rfl

/-- **C4**: an approval request is resolved at most once.  For *any*
interleaving of `approveAction`, `denyAction` and the 30-second timeout
firing, the callback is invoked at most once (`outcomes` has at most one
entry); the first event wins — it removes the request and invokes the
callback with its outcome — and every later `approveAction`/`denyAction`
returns `false` without invoking the callback; on a still-pending
request, `approveAction`/`denyAction` removes it, invokes the callback
and returns `true`. -/
theorem approval_resolved_at_most_once :
    (∀ evs : List ApprovalEvent, (runApproval evs).outcomes.length ≤ 1) ∧
    (∀ (e : ApprovalEvent) (evs : List ApprovalEvent),
      runApproval (e :: evs) = { pending := false, outcomes := [approvalOutcomeOf e] }) ∧
    (∀ s : ApprovalSt, s.pending = false →
      approveAction s = (s, false) ∧ denyAction s = (s, false)) ∧
    (∀ s : ApprovalSt, s.pending = true →
      approveAction s = ({ pending := false, outcomes := s.outcomes ++ [true] }, true) ∧
      denyAction s = ({ pending := false, outcomes := s.outcomes ++ [false] }, true)) := by
  have hfirst : ∀ (e : ApprovalEvent) (evs : List ApprovalEvent),
      runApproval (e :: evs)
        = { pending := false, outcomes := [approvalOutcomeOf e] } := by
    intro e evs
    unfold runApproval
    rw [List.foldl_cons, applyApproval_initial e]
    exact foldl_resolved evs _ rfl
  refine ⟨?_, hfirst, ?_, ?_⟩
  · intro evs
    cases evs with
    | nil => exact Nat.zero_le 1
    | cons e evs =>
        rw [hfirst e evs]
        simp
  · intro s h
    constructor <;> simp [approveAction, denyAction, h]
  · intro s h
    constructor <;> simp [approveAction, denyAction, h]

/-- **C4** (witness): the timeout fires first, a late approval is a
no-op returning `false`, and a pending request resolves with `true`. -/
theorem approval_resolved_at_most_once_witness :
    runApproval [ApprovalEvent.timerFire, ApprovalEvent.approve]
      = { pending := false, outcomes := [false] } ∧
    approveAction { pending := false, outcomes := [false] }
      = ({ pending := false, outcomes := [false] }, false) ∧
    approveAction { pending := true, outcomes := [] }
      = ({ pending := false, outcomes := [true] }, true) := by
  refine ⟨?_, ?_, ?_⟩
  · exact approval_resolved_at_most_once.2.1 .timerFire [.approve]
  · exact (approval_resolved_at_most_once.2.2.1 _ rfl).1
  · exact (approval_resolved_at_most_once.2.2.2 _ rfl).1

/-- **C7** (counterexample): the primary model `"a"` fails with HTTP 429
and the fallback `"b"` succeeds with a response carrying no `usage`
record.  The returned response is the fallback's and both models were
attempted, but only **one** metric is recorded — the success metric is
skipped because `recordLLMMetric` on the success path is guarded by
`if (usage)` (prompts.ts line 282).  This refutes the claim's
"a metric recorded for each attempt". -/
theorem fallback_metric_missing :
    chatLoop provRateLimited ["a", "b"] none
      = (.success "resp-b", ["a", "b"], [("a", false)]) ∧
    (chatLoop provRateLimited ["a", "b"] none).2.1.length = 2 ∧
    (chatLoop provRateLimited ["a", "b"] none).2.2.length = 1 := by
  refine ⟨by decide, by decide, by decide⟩

/-- **C7** (amended): `LLMClient.chat` tries the configured models in
order.  After any run of transiently-failing models (HTTP 429/500/502/
503): a success stops the chain and the returned response is that
model's, with a failure metric recorded for every failed attempt and a
success metric for the successful attempt **only when the response
carries usage data**; a non-transient failure propagates immediately,
with no further models tried; and if every model fails transiently, the
loop throws `'All models failed. Last error: '` followed by the **last**
model's error message, with a failure metric for every attempt. -/
theorem chat_fallback_policy :
    (∀ (prov : String → ProviderRes) (pre rest : List String) (m : String)
        (last : Option String) (r : String) (us : Bool),
      (∀ x ∈ pre, ∃ msg st, prov x = .err msg st ∧ shouldRetry st = true) →
      prov m = .ok r us →
      chatLoop prov (pre ++ m :: rest) last
        = (.success r, pre ++ [m],
           pre.map (fun x => (x, false)) ++ (if us then [(m, true)] else []))) ∧
    (∀ (prov : String → ProviderRes) (pre rest : List String) (m : String)
        (last : Option String) (msg : String) (st : Option Nat),
      (∀ x ∈ pre, ∃ msg2 st2, prov x = .err msg2 st2 ∧ shouldRetry st2 = true) →
      prov m = .err msg st → shouldRetry st = false →
      chatLoop prov (pre ++ m :: rest) last
        = (.raised msg, pre ++ [m],
           pre.map (fun x => (x, false)) ++ [(m, false)])) ∧
    (∀ (prov : String → ProviderRes) (models : List String) (last : Option String)
        (f : String → String) (g : String → Option Nat),
      (∀ x ∈ models, prov x = .err (f x) (g x) ∧ shouldRetry (g x) = true) →
      chatLoop prov models last
        = (.raised ("All models failed. Last error: " ++
             (match models.getLast? with
              | some mm => f mm
              | none => last.getD "undefined")),
           models, models.map (fun x => (x, false)))) := by
  refine ⟨?_, ?_, ?_⟩
  · intro prov pre rest m
    induction pre with
    | nil =>
        intro last r us hpre hm
        simp [chatLoop, hm]
    | cons x pre ih =>
        intro last r us hpre hm
        obtain ⟨msg, st, hx, hst⟩ := hpre x (by simp)
        have ihh := ih (some msg) r us (fun y hy => hpre y (by simp [hy])) hm
        simp only [List.cons_append, chatLoop, hx, hst, if_true, List.append_eq]
        rw [ihh]
        simp
  · intro prov pre rest m
    induction pre with
    | nil =>
        intro last msg st hpre hm hst
        simp [chatLoop, hm, hst]
    | cons x pre ih =>
        intro last msg st hpre hm hst
        obtain ⟨msg2, st2, hx, hst2⟩ := hpre x (by simp)
        have ihh := ih (some msg2) msg st (fun y hy => hpre y (by simp [hy])) hm hst
        simp only [List.cons_append, chatLoop, hx, hst2, if_true, List.append_eq]
        rw [ihh]
        simp
  · intro prov models
    induction models with
    | nil =>
        intro last f g h
        simp [chatLoop]
    | cons m rest ih =>
        intro last f g h
        obtain ⟨hm, hr⟩ := h m (by simp)
        have ihh := ih (some (f m)) f g (fun y hy => h y (by simp [hy]))
        simp only [chatLoop, hm, hr, if_true]
        rw [ihh]
        cases rest with
        | nil => simp
        | cons y t =>
            obtain ⟨z, hz⟩ : ∃ z, (y :: t).getLast? = some z :=
              ⟨(y :: t).getLast (by simp), rfl⟩
            simp [hz]

/-- **C7** (witness for the amended theorem): a rate-limited primary with
a succeeding fallback returns the fallback's response, recording the
failure metric but (usage absent) no success metric. -/
theorem chat_fallback_policy_witness :
    chatLoop provRateLimited (["a"] ++ "b" :: []) none
      = (.success "resp-b", ["a"] ++ ["b"],
         ["a"].map (fun x => (x, false)) ++ (if false then [("b", true)] else [])) :=
  chat_fallback_policy.1 provRateLimited ["a"] [] "b" none "resp-b" false
    (fun x hx => by
      rw [List.mem_singleton] at hx
      subst hx
      exact ⟨"rate limited", some 429, rfl, rfl⟩)
    rfl

/-- **C8**: if a first non-streaming `chat` call is a cache miss whose
primary model succeeds, it invokes the provider exactly once and stores
the response; a second call with the identical messages/tools payload
within the 300-second TTL returns that cached response with **zero**
provider invocations and leaves the cache unchanged; streaming calls
never write to the cache, and their outcome and attempts are independent
of the cache contents (they never read it). -/
theorem chat_cache_single_invocation
    (prov : String → ProviderRes) (cfg : LLMCfg) (cache : List (String × String × Nat))
    (t1 t2 : Nat) (messages tools r : String) (us : Bool)
    (hok : prov cfg.primaryModel = .ok r us)
    (hmiss : cacheGet cache (getCacheKey cfg.primaryModel messages tools) t1 = none)
    (httl : t2 < t1 + 300) :
    chat prov cfg cache t1 messages tools false
      = (.success r,
         (getCacheKey cfg.primaryModel messages tools, r, t1) :: cache,
         [cfg.primaryModel], if us then [(cfg.primaryModel, true)] else []) ∧
    chat prov cfg ((getCacheKey cfg.primaryModel messages tools, r, t1) :: cache) t2
        messages tools false
      = (.success r, (getCacheKey cfg.primaryModel messages tools, r, t1) :: cache,
         [], []) ∧
    (∀ (cache2 : List (String × String × Nat)) (now : Nat) (m2 t3 : String),
      (chat prov cfg cache2 now m2 t3 true).2.1 = cache2) ∧
    (∀ (cache2 cache3 : List (String × String × Nat)) (now : Nat) (m2 t3 : String),
      (chat prov cfg cache2 now m2 t3 true).1 = (chat prov cfg cache3 now m2 t3 true).1 ∧
      (chat prov cfg cache2 now m2 t3 true).2.2.1
        = (chat prov cfg cache3 now m2 t3 true).2.2.1) := by
  refine ⟨?_, ?_, ?_, ?_⟩
  · simp [chat, hmiss, chatLoop, hok]
  · simp [chat, cacheGet, List.find?_cons, httl]
  · intro cache2 now m2 t3
    rcases hcl : chatLoop prov (cfg.primaryModel :: cfg.fallbackModels) none
      with ⟨o, att, met⟩
    cases o <;> simp [chat, hcl]
  · intro cache2 cache3 now m2 t3
    rcases hcl : chatLoop prov (cfg.primaryModel :: cfg.fallbackModels) none
      with ⟨o, att, met⟩
    cases o <;> simp [chat, hcl]

/-- **C8** (witness): a one-model configuration; the first call at time 0
stores the response, the second identical call at time 100 hits the
cache with no provider invocation. -/
theorem chat_cache_single_invocation_witness :
    chat provAlwaysOk cfgOneModel [] 0 "msgs" "tools" false
      = (.success "resp-p", [(getCacheKey "p" "msgs" "tools", "resp-p", 0)], ["p"],
         [("p", true)]) ∧
    chat provAlwaysOk cfgOneModel [(getCacheKey "p" "msgs" "tools", "resp-p", 0)] 100
        "msgs" "tools" false
      = (.success "resp-p", [(getCacheKey "p" "msgs" "tools", "resp-p", 0)], [], []) := by
  have h := chat_cache_single_invocation provAlwaysOk cfgOneModel [] 0 100 "msgs" "tools"
    "resp-p" true rfl rfl (by decide)
  exact ⟨h.1, h.2.1⟩

end AIAgent
